import Mathlib

/-!
Verification development for the tietie-bot repository.

The file shallowly embeds the three components the claims are about:
* the message describer (`src/unnamed/part_000`): `formatUser`,
  `tryExtractUserFromMessage`, the three species of `tryDescribe` call
  sites, and `tryDescribeMessage`;
* the Matrix adapter (`src/unnamed/part_001`, class `MatrixUserBotClient`):
  `sendMessage` and `uploadMediaAsync` (front half and background task);
* the link/nickname store (`src/unnamed/part_001`, sqlite helpers):
  `setDiscordLink`, `setDiscordNickname`, `getDiscordNickname`.

JavaScript strings are modelled as Lean `String`; a value that can be
`undefined` is an `Option`.  `String.prototype.trim` is modelled by
`jsTrim` (drop whitespace characters from both ends, with Lean's
`Char.isWhitespace` as the whitespace class), `includes` by `jsIncludes`,
and `split(sep)[0]` by `jsSplitFirst`.  A JavaScript `TypeError` (reading
a property of `undefined`) is modelled by `Except.error ()`.
-/

namespace TietieBot

/-! ## JavaScript string primitives -/

/-- One step of `String.prototype.trim`: drop leading whitespace. -/
def trimLeftL (l : List Char) : List Char := l.dropWhile Char.isWhitespace

/-- Drop trailing whitespace. -/
def trimRightL (l : List Char) : List Char :=
  (l.reverse.dropWhile Char.isWhitespace).reverse

/-- `String.prototype.trim` on the character list. -/
def jsTrimL (l : List Char) : List Char := trimRightL (trimLeftL l)

/-- Model of `String.prototype.trim`. -/
def jsTrim (s : String) : String := ⟨jsTrimL s.data⟩

/-- Is `pat` a prefix of `l`? (helper for `includes` / `split`). -/
def listHasPre : List Char → List Char → Bool
  | [], _ => true
  | _ :: _, [] => false
  | p :: ps, c :: cs => if p = c then listHasPre ps cs else false

/-- Does `l` contain `pat` as a contiguous run? -/
def listIncludes (pat : List Char) : List Char → Bool
  | [] => listHasPre pat []
  | c :: cs => listHasPre pat (c :: cs) || listIncludes pat cs

/-- Model of `String.prototype.includes`. -/
def jsIncludes (s pat : String) : Bool := listIncludes pat.data s.data

/-- The characters before the first occurrence of `pat`. -/
def splitFirstL (pat : List Char) : List Char → List Char
  | [] => []
  | c :: cs => if listHasPre pat (c :: cs) then [] else c :: splitFirstL pat cs

/-- Model of `s.split(pat)[0]`: the text before the first occurrence of
`pat` (the whole string when `pat` does not occur). -/
def jsSplitFirst (s pat : String) : String := ⟨splitFirstL pat.data s.data⟩

/-- `s` contains `pat` as a contiguous substring. -/
abbrev strContains (s pat : String) : Prop := listIncludes pat.data s.data = true

/-! ## Data model of the Telegram message (part_000)

`tryDescribeMessage` inspects the fields below.  A media kind whose
payload the describer never reads (`audio`, `animation`, `photo`,
`video`, `video_note`, `game`) is modelled by a presence `Bool`
(the code only tests `'field' in message`); a kind whose payload is
interpolated carries the fields the code reads.  The replied-to message
(`reply_to_message`) is read only through its `from` and `text` fields,
so it is embedded as the flat `SubMsg`. -/

structure JUser where
  first_name : Option String := none
  last_name : Option String := none
  username : Option String := none
  deriving DecidableEq

structure TgDocument where
  file_name : Option String := none
  deriving DecidableEq

structure TgSticker where
  set_name : Option String := none
  deriving DecidableEq

structure TgVoice where
  duration : Nat := 0
  deriving DecidableEq

structure TgContact where
  first_name : String := ""
  last_name : Option String := none
  deriving DecidableEq

structure TgDice where
  emoji : String := ""
  value : Int := 0
  deriving DecidableEq

structure TgPoll where
  question : String := ""
  deriving DecidableEq

/-- `latitude`/`longitude` are numbers in the source; the describer only
interpolates them, so they are carried as their rendered decimal text. -/
structure TgLocation where
  latitude : String := ""
  longitude : String := ""
  deriving DecidableEq

structure TgVenue where
  title : String := ""
  deriving DecidableEq

/-- The `from`/`text` projection of a message, all that
`tryExtractUserFromMessage` reads of a replied-to message. -/
structure SubMsg where
  from_ : Option JUser := none
  text : Option String := none
  deriving DecidableEq

structure Msg where
  from_ : Option JUser := none
  text : Option String := none
  caption : Option String := none
  forward_from : Option JUser := none
  reply_to_message : Option SubMsg := none
  via_bot : Option JUser := none
  audio : Bool := false
  document : Option TgDocument := none
  animation : Bool := false
  photo : Bool := false
  sticker : Option TgSticker := none
  video : Bool := false
  video_note : Bool := false
  voice : Option TgVoice := none
  contact : Option TgContact := none
  dice : Option TgDice := none
  game : Bool := false
  poll : Option TgPoll := none
  location : Option TgLocation := none
  venue : Option TgVenue := none
  deriving DecidableEq

def Msg.toSub (m : Msg) : SubMsg := ⟨m.from_, m.text⟩

/-- The `{}` object the sender is defaulted to (`message.from ?? {}`). -/
def defaultJUser : JUser := ⟨none, none, none⟩

/-- Rendering of a string-or-undefined inside a template literal:
`undefined` prints as `"undefined"`. -/
def jsStr (o : Option String) : String := o.getD "undefined"

/-- Rendering of a string-or-undefined as an `Array.prototype.join`
element: `undefined` joins as the empty string. -/
def jsJoinStr (o : Option String) : String := o.getD ""

/-! ## The describer (part_000) -/

/-- part_000 lines 4-6:
`${user.first_name || ''} ${user.last_name || ''}`.trim() || user.username.
Returns `none` exactly when the trimmed name is empty and `username` is
absent (the JS value `undefined`). -/
def formatUser (u : JUser) : Option String :=
  let name := jsTrim ((u.first_name.getD "") ++ " " ++ (u.last_name.getD ""))
  if name = "" then u.username else some name

/-- part_000 lines 9-15.  When the sender is the bot itself the code
reads `message.text` without a presence check; on a message with no
`text` this is a JS `TypeError` (`Except.error ()`). -/
def tryExtractUserFromMessage (botUsername : String) (m : SubMsg) :
    Except Unit (Option String) :=
  match m.from_ with
  | none => Except.ok (some "")
  | some u =>
    if u.username = some botUsername then
      match m.text with
      | none => Except.error ()
      | some t =>
        if jsIncludes t ": " then Except.ok (some (jsSplitFirst t ": "))
        else Except.ok (formatUser u)
    else Except.ok (formatUser u)

/-- part_000 lines 21-22: `tryDescribe` with a string descriptor produces
a bracketed fragment when the field is present. -/
def tryDescribeStr (present : Bool) (descriptor : String) : String :=
  if present then "[" ++ descriptor ++ "] " else ""

/-- part_000 lines 23-26: `tryDescribe` with a synchronous function
descriptor.  The string result is not a thenable, so it is returned
as-is — without brackets and without the trailing space. -/
def tryDescribeSyncFn {α : Type} (field : Option α) (render : α → String) : String :=
  match field with
  | none => ""
  | some v => render v

/-- part_000 lines 23-27: `tryDescribe` with an async function
descriptor; the awaited result is wrapped as a bracketed fragment. -/
def tryDescribeAsyncFn {α : Type} (field : Option α)
    (render : α → Except Unit String) : Except Unit String :=
  match field with
  | none => Except.ok ""
  | some v =>
    match render v with
    | Except.error e => Except.error e
    | Except.ok s => Except.ok ("[" ++ s ++ "] ")

/-- part_000 line 33.  The forward descriptor ignores the `forward_from`
payload and re-extracts the user from the message itself. -/
def describeForwardFragment (botU : String) (m : Msg) : Except Unit String :=
  tryDescribeAsyncFn m.forward_from (fun _ =>
    match tryExtractUserFromMessage botU m.toSub with
    | Except.error e => Except.error e
    | Except.ok u => Except.ok ("转发自：" ++ jsStr u))

/-- part_000 line 34. -/
def describeReplyFragment (botU : String) (m : Msg) : Except Unit String :=
  tryDescribeAsyncFn m.reply_to_message (fun r =>
    match tryExtractUserFromMessage botU r with
    | Except.error e => Except.error e
    | Except.ok u => Except.ok ("回复给：" ++ jsStr u))

/-- part_000 line 35. -/
def describeViaBotFragment (m : Msg) : Except Unit String :=
  tryDescribeAsyncFn m.via_bot (fun v => Except.ok ("发送自：" ++ jsStr (formatUser v)))

/-- part_000 line 52: `'text' in message ? message.text : 'caption' in
message ? message.caption : ''`. -/
def textOrCaption (m : Msg) : String :=
  match m.text with
  | some t => t
  | none => m.caption.getD ""

/-- part_000 lines 8, 30-53.  `Array.prototype.join('')` is string
concatenation (an `undefined` element joins as `""`); the awaits run
left to right, so an error in an earlier fragment pre-empts the later
ones, as in the source (the monadic bind on `Except` is written as an
explicit match). -/
def tryDescribeMessage (botU : String) (uf : JUser → Option String) (m : Msg) :
    Except Unit String :=
  match describeForwardFragment botU m with
  | Except.error e => Except.error e
  | Except.ok fwd =>
  match describeReplyFragment botU m with
  | Except.error e => Except.error e
  | Except.ok rpl =>
  match describeViaBotFragment m with
  | Except.error e => Except.error e
  | Except.ok via =>
  Except.ok (jsTrim (
    jsJoinStr (uf (m.from_.getD defaultJUser)) ++ ": " ++ fwd ++ rpl ++ via ++
    tryDescribeStr m.audio "音频" ++
    tryDescribeSyncFn m.document (fun d => "文件：" ++ d.file_name.getD "未知文件") ++
    tryDescribeStr m.animation "GIF" ++
    tryDescribeStr m.photo "图片" ++
    tryDescribeSyncFn m.sticker (fun st => "贴纸：" ++ st.set_name.getD "无贴纸包") ++
    tryDescribeStr m.video "视频" ++
    tryDescribeStr m.video_note "即时视频" ++
    tryDescribeSyncFn m.voice (fun v => "语音：" ++ toString v.duration ++ "s") ++
    tryDescribeSyncFn m.contact
      (fun c => "联系人: " ++ jsTrim (c.first_name ++ " " ++ c.last_name.getD "")) ++
    tryDescribeSyncFn m.dice
      (fun d => "骰子：" ++ d.emoji ++ " - 掷出了 " ++ toString d.value ++ " 点") ++
    tryDescribeStr m.game "小游戏" ++
    tryDescribeSyncFn m.poll (fun p => "投票：" ++ p.question) ++
    tryDescribeSyncFn m.location (fun l => "位置: " ++ l.latitude ++ "," ++ l.longitude) ++
    tryDescribeSyncFn m.venue (fun v => "位置: " ++ v.title) ++
    textOrCaption m))

/-- None of the optional capability fields of the describer is present
on `m` (no forward, reply, via-bot or media field). -/
abbrev noCaps (m : Msg) : Prop :=
  m.forward_from = none ∧ m.reply_to_message = none ∧ m.via_bot = none ∧
  m.audio = false ∧ m.document = none ∧ m.animation = false ∧ m.photo = false ∧
  m.sticker = none ∧ m.video = false ∧ m.video_note = false ∧ m.voice = none ∧
  m.contact = none ∧ m.dice = none ∧ m.game = false ∧ m.poll = none ∧
  m.location = none ∧ m.venue = none

/-- The situation in which `tryExtractUserFromMessage` dereferences
`message.text` on a message that has none: the sender is the bot itself
and the `text` field is absent. -/
def botNoText (botU : String) (sub : SubMsg) : Prop :=
  ∃ u, sub.from_ = some u ∧ u.username = some botU ∧ sub.text = none

/-! ## Link/nickname store (part_001, sqlite helpers)

The two tables are modelled as lists of rows in insertion order.
`db.get` returns the first matching row (an `Option`), `db.all`/`UPDATE`
touch every matching row, `INSERT` appends. -/

/-- Row of `discord_link_v2`: `(chat_id, discord_channel_id)`. -/
def linkKey (c : String) : String × String → Bool := fun r => decide (r.1 = c)

/-- part_001 lines 158-166: check-then-act upsert on `discord_link_v2`. -/
def setDiscordLink (st : List (String × String)) (chatId discordChannelId : String) :
    List (String × String) :=
  if st.any (linkKey chatId) then
    st.map (fun r => if r.1 = chatId then (r.1, discordChannelId) else r)
  else st ++ [(chatId, discordChannelId)]

/-- The rows of `discord_link_v2` whose `chat_id` is `c`. -/
def linksFor (st : List (String × String)) (c : String) : List (String × String) :=
  st.filter (linkKey c)

/-- Number of rows for a given `chat_id`. -/
def countLinks (st : List (String × String)) (c : String) : Nat := (linksFor st c).length

/-- Row of `discord_nick`: `(chat_id, user_id, nickname)`. -/
def nickKey (c u : String) : String × String × String → Bool :=
  fun r => decide (r.1 = c ∧ r.2.1 = u)

/-- part_001 lines 168-176: check-then-act upsert on `discord_nick`. -/
def setDiscordNickname (st : List (String × String × String)) (chatId userId nickname : String) :
    List (String × String × String) :=
  if st.any (nickKey chatId userId) then
    st.map (fun r => if r.1 = chatId ∧ r.2.1 = userId then (r.1, r.2.1, nickname) else r)
  else st ++ [(chatId, userId, nickname)]

/-- part_001 lines 178-182: `db.get` the first matching row, then
`result && result.nickname` — `none` when there is no row. -/
def getDiscordNickname (st : List (String × String × String)) (chatId userId : String) :
    Option String :=
  (st.find? (nickKey chatId userId)).map (fun r => r.2.2)

/-- The `discord_nick` table produced by a sequence of
`setDiscordNickname` calls starting from the freshly created (empty)
table. -/
def applyNickOps (ops : List (String × String × String)) : List (String × String × String) :=
  ops.foldl (fun st op => setDiscordNickname st op.1 op.2.1 op.2.2) []

/-! ## Matrix adapter (part_001, `MatrixUserBotClient`)

`cachedMedia` is a JS `Map` from source URL to mxc URI, modelled as an
association list.  Network effects are parameters: the `POST
/media/v1/create` response (`freshMxcUri`), the fetched resource's
`Content-Length` (`contentLength`, the parsed number, `0` when the
header is missing), and whether the `PUT` upload succeeds
(`putSucceeds`).  The fire-and-forget IIFE (lines 113-131) is the
separate function `uploadMediaBackground`; `uploadMediaAsync` is the
part that runs before `sendMessage`'s await returns. -/

def lookupCache (cache : List (String × String)) (url : String) : Option String :=
  (cache.find? (fun e => decide (e.1 = url))).map (fun e => e.2)

/-- JS `Map.prototype.set`: overwrite the entry if present, else add. -/
def cacheSet (cache : List (String × String)) (url mxc : String) :
    List (String × String) :=
  if cache.any (fun e => decide (e.1 = url)) then
    cache.map (fun e => if e.1 = url then (e.1, mxc) else e)
  else cache ++ [(url, mxc)]

/-- part_001 lines 104-112, 132: return the cached mxc URI, or the one
minted by `POST /media/v1/create`; the cache is not touched before the
function returns. -/
def uploadMediaAsync (cache : List (String × String)) (url freshMxcUri : String) :
    String × List (String × String) :=
  match lookupCache cache url with
  | some m => (m, cache)
  | none => (freshMxcUri, cache)

/-- part_001 lines 113-131, the fire-and-forget background task:
`(whether the PUT upload was issued, resulting cache)`.  A resource
with `!contentLength || contentLength > 1024 * 1024` is abandoned
(`return; // give you up`); the cache is written only after a
successful PUT.  A rejection inside the IIFE is unhandled and never
reaches `sendMessage`'s caller. -/
def uploadMediaBackground (cache : List (String × String)) (url mxcUri : String)
    (contentLength : Nat) (putSucceeds : Bool) : Bool × List (String × String) :=
  if contentLength = 0 ∨ 1024 * 1024 < contentLength then (false, cache)
  else if putSucceeds then (true, cacheSet cache url mxcUri)
  else (true, cache)

/-! ### sendMessage (part_001 lines 36-59) -/

/-- `MessageToSend` from src/src/clients/base.ts (rawMessageExtra, an
opaque escape hatch, is omitted). -/
structure MessageToSend where
  clientName : String := ""
  text : String := ""
  chatId : String := ""
  mediaType : Option String := none
  mediaUrl : Option String := none
  mediaMimeType : Option String := none
  mediaSize : Option Nat := none
  messageIdReplied : Option String := none
  deriving DecidableEq

/-- `GenericMessage` from src/src/clients/base.ts (the opaque raw
payloads are omitted; `unixDate` carries the timestamp the adapter
stamped). -/
structure GenericMessage where
  clientName : String
  text : String
  userId : String
  userName : String
  chatId : String
  messageId : String
  unixDate : Nat
  mediaType : Option String := none
  mediaUrl : Option String := none
  mediaMimeType : Option String := none
  mediaSize : Option Nat := none
  messageIdReplied : Option String := none
  deriving DecidableEq

/-- The `matrixEventContent` object built by `sendMessage`
(part_001 lines 40-46); `h`/`w` are the constants 160. -/
structure MatrixEventContent where
  body : String
  url : Option String
  mimetype : Option String
  size : Option Nat
  msgtype : String
  replyToEventId : Option String
  deriving DecidableEq

/-- part_001 lines 36-59.  `botUserId` is `this.botInfo!.user_id`,
`eventId` the id returned by `bot.sendEvent`, `now` the timestamp.
Returns (event type sent, event content sent, the `GenericMessage`
handed back to the caller). -/
def matrixSendMessage (botUserId eventId : String) (now : Nat)
    (cache : List (String × String)) (freshMxc : String) (m : MessageToSend) :
    String × MatrixEventContent × GenericMessage :=
  let isSupportedSticker := m.mediaType = some "sticker" ∧ m.mediaMimeType = some "image/jpeg"
  let matrixMediaType :=
    if m.mediaType = some "sticker" ∧ ¬ isSupportedSticker then some "video" else m.mediaType
  let matrixEventType := if matrixMediaType = some "sticker" then "m.sticker" else "m.room.message"
  let content : MatrixEventContent := {
    body := m.text
    url := if m.mediaType.isSome
           then some (uploadMediaAsync cache (m.mediaUrl.getD "") freshMxc).1
           else none
    mimetype := m.mediaMimeType
    size := m.mediaSize
    msgtype := "m." ++ matrixMediaType.getD "text"
    replyToEventId := m.messageIdReplied }
  (matrixEventType, content,
    { clientName := "matrix"
      text := m.text
      userId := botUserId
      userName := botUserId
      chatId := m.chatId
      messageId := eventId
      unixDate := now
      mediaType := m.mediaType
      mediaUrl := m.mediaUrl
      mediaMimeType := m.mediaMimeType
      mediaSize := m.mediaSize
      messageIdReplied := m.messageIdReplied })

end TietieBot

deriving instance DecidableEq for Except

namespace TietieBot

/-! ## Helper lemmas: strings and lists -/

theorem strData_append (s t : String) : (s ++ t).data = s.data ++ t.data := by
  cases s
  cases t
  rfl

theorem strExt {s t : String} (h : s.data = t.data) : s = t := by
  cases s
  cases t
  exact congrArg String.mk h

theorem jsTrim_data (s : String) : (jsTrim s).data = jsTrimL s.data := rfl

theorem strData_empty : ("" : String).data = [] := rfl

theorem length_trimLeftL_le (l : List Char) : (trimLeftL l).length ≤ l.length := by
  unfold trimLeftL
  induction l with
  | nil => simp
  | cons a l ih =>
    rw [List.dropWhile_cons]
    split
    case isTrue => exact Nat.le_trans ih (Nat.le_succ _)
    case isFalse => simp

theorem length_trimRightL_le (l : List Char) : (trimRightL l).length ≤ l.length := by
  unfold trimRightL
  rw [List.length_reverse]
  calc (l.reverse.dropWhile Char.isWhitespace).length
      ≤ l.reverse.length := length_trimLeftL_le l.reverse
    _ = l.length := List.length_reverse l

theorem trimLeftL_eq_of_length (l : List Char)
    (h : (trimLeftL l).length = l.length) : trimLeftL l = l := by
  cases l with
  | nil => rfl
  | cons a l =>
    unfold trimLeftL at h ⊢
    rw [List.dropWhile_cons] at h ⊢
    cases hws : a.isWhitespace with
    | false => simp [hws]
    | true =>
      exfalso
      rw [hws] at h
      simp at h
      have hle := length_trimLeftL_le l
      unfold trimLeftL at hle
      omega

theorem trimLeftL_eq_self {l : List Char} (h : jsTrimL l = l) : trimLeftL l = l := by
  have h1 : (jsTrimL l).length = l.length := by rw [h]
  have h2 : (jsTrimL l).length ≤ (trimLeftL l).length := length_trimRightL_le (trimLeftL l)
  have h3 : (trimLeftL l).length ≤ l.length := length_trimLeftL_le l
  exact trimLeftL_eq_of_length l (Nat.le_antisymm h3 (by omega))

theorem dropWhile_ws_append (X : List Char) (p : Char) (R : List Char)
    (hp : p.isWhitespace = false) :
    (X ++ p :: R).dropWhile Char.isWhitespace
      = X.dropWhile Char.isWhitespace ++ p :: R := by
  induction X with
  | nil => simp [List.dropWhile_cons, hp]
  | cons a X ih =>
    rw [List.cons_append, List.dropWhile_cons, List.dropWhile_cons]
    split
    case isTrue => exact ih
    case isFalse => rfl

theorem jsTrimL_append_colon (l : List Char) (h : jsTrimL l = l) :
    jsTrimL (l ++ [':', ' ']) = l ++ [':'] := by
  have hL : trimLeftL l = l := trimLeftL_eq_self h
  have h1 : trimLeftL (l ++ [':', ' ']) = l ++ [':', ' '] := by
    have hdw := dropWhile_ws_append l ':' [' '] (by decide)
    unfold trimLeftL at hL ⊢
    rw [show l ++ [':', ' '] = l ++ ':' :: [' '] from rfl, hdw, hL]
  have h2 : trimRightL (l ++ [':', ' ']) = l ++ [':'] := by
    have hrev : (l ++ [':', ' ']).reverse = ' ' :: ':' :: l.reverse := by simp
    unfold trimRightL
    rw [hrev, List.dropWhile_cons_of_pos (by decide), List.dropWhile_cons_of_neg (by decide)]
    simp
  unfold jsTrimL
  rw [h1, h2]

theorem listHasPre_append (pat B : List Char) : listHasPre pat (pat ++ B) = true := by
  induction pat with
  | nil => rfl
  | cons p ps ih => simp [listHasPre, ih]

theorem listHasPre_parts {pat l : List Char} (h : listHasPre pat l = true) :
    ∃ B, l = pat ++ B := by
  induction pat generalizing l with
  | nil => exact ⟨l, rfl⟩
  | cons p ps ih =>
    cases l with
    | nil => simp [listHasPre] at h
    | cons c cs =>
      rw [listHasPre] at h
      split at h
      case isTrue heq =>
        obtain ⟨B, hB⟩ := ih h
        exact ⟨B, by rw [heq, hB]; rfl⟩
      case isFalse => cases h

theorem listIncludes_of_hasPre (pat l : List Char) (h : listHasPre pat l = true) :
    listIncludes pat l = true := by
  cases l with
  | nil => simpa [listIncludes] using h
  | cons c cs => simp [listIncludes, h]

theorem listIncludes_parts (A pat B : List Char) : listIncludes pat (A ++ pat ++ B) = true := by
  induction A with
  | nil => simpa using listIncludes_of_hasPre pat (pat ++ B) (listHasPre_append pat B)
  | cons a A ih => simpa [listIncludes] using Or.inr ih

theorem listIncludes_to_parts {pat l : List Char} (h : listIncludes pat l = true) :
    ∃ X Y, l = X ++ pat ++ Y := by
  induction l with
  | nil =>
    rw [listIncludes] at h
    obtain ⟨B, hB⟩ := listHasPre_parts h
    exact ⟨[], B, by simpa using hB⟩
  | cons c cs ih =>
    rw [listIncludes, Bool.or_eq_true] at h
    rcases h with h | h
    · obtain ⟨B, hB⟩ := listHasPre_parts h
      exact ⟨[], B, by simpa using hB⟩
    · obtain ⟨X, Y, hXY⟩ := ih h
      exact ⟨c :: X, Y, by rw [hXY]; rfl⟩

theorem jsTrimL_parts (X Y mid : List Char) (p q : Char)
    (hp : p.isWhitespace = false) (hq : q.isWhitespace = false) :
    ∃ X2 Y2, jsTrimL (X ++ (p :: (mid ++ [q])) ++ Y)
      = X2 ++ (p :: (mid ++ [q])) ++ Y2 := by
  refine ⟨trimLeftL X, (Y.reverse.dropWhile Char.isWhitespace).reverse, ?_⟩
  have h1 : trimLeftL (X ++ (p :: (mid ++ [q])) ++ Y)
      = trimLeftL X ++ p :: (mid ++ [q] ++ Y) := by
    unfold trimLeftL
    rw [show X ++ (p :: (mid ++ [q])) ++ Y = X ++ p :: (mid ++ [q] ++ Y) by simp]
    exact dropWhile_ws_append X p (mid ++ [q] ++ Y) hp
  have h2 : trimRightL (trimLeftL X ++ p :: (mid ++ [q] ++ Y))
      = trimLeftL X ++ (p :: (mid ++ [q])) ++ (Y.reverse.dropWhile Char.isWhitespace).reverse := by
    unfold trimRightL
    have hrev : (trimLeftL X ++ p :: (mid ++ [q] ++ Y)).reverse
        = Y.reverse ++ q :: (mid.reverse ++ p :: (trimLeftL X).reverse) := by simp
    rw [hrev, dropWhile_ws_append Y.reverse q (mid.reverse ++ p :: (trimLeftL X).reverse) hq]
    simp
  unfold jsTrimL
  rw [h1, h2]

theorem includes_jsTrimL (l mid : List Char) (p q : Char)
    (hp : p.isWhitespace = false) (hq : q.isWhitespace = false)
    (h : listIncludes (p :: (mid ++ [q])) l = true) :
    listIncludes (p :: (mid ++ [q])) (jsTrimL l) = true := by
  obtain ⟨X, Y, rfl⟩ := listIncludes_to_parts h
  obtain ⟨X2, Y2, hT⟩ := jsTrimL_parts X Y mid p q hp hq
  rw [hT]
  exact listIncludes_parts X2 _ Y2

theorem listIncludes_append_right (pat A B : List Char)
    (h : listIncludes pat B = true) : listIncludes pat (A ++ B) = true := by
  induction A with
  | nil => simpa using h
  | cons a A ih => simpa [listIncludes] using Or.inr ih

theorem listIncludes_cons (pat : List Char) (c : Char) (l : List Char)
    (h : listIncludes pat l = true) : listIncludes pat (c :: l) = true := by
  simp [listIncludes, h]

end TietieBot

namespace TietieBot

/-! ## Helper lemmas: the store -/

theorem filter_map_of_pred {α : Type} (f : α → α) (k : α → Bool)
    (hf : ∀ r, k (f r) = k r) (st : List α) :
    (st.map f).filter k = (st.filter k).map f := by
  induction st with
  | nil => rfl
  | cons r st ih =>
    rw [List.map_cons, List.filter_cons, List.filter_cons, hf r]
    cases hk : k r with
    | false => simpa using ih
    | true => simpa using ih

theorem linkKey_update (c c2 ch : String) :
    ∀ r : String × String, linkKey c2 (if r.1 = c then (r.1, ch) else r) = linkKey c2 r := by
  intro r
  by_cases h : r.1 = c
  · simp [h, linkKey]
  · simp [h]

theorem filter_nil_of_not_any {α : Type} (k : α → Bool) (st : List α)
    (h : ¬ st.any k = true) : st.filter k = [] := by
  rw [List.filter_eq_nil_iff]
  intro r hr hk
  exact h (List.any_eq_true.mpr ⟨r, hr, hk⟩)

theorem linksFor_set_self (st : List (String × String)) (c ch : String)
    (h : countLinks st c ≤ 1) : linksFor (setDiscordLink st c ch) c = [(c, ch)] := by
  unfold setDiscordLink linksFor
  by_cases hany : st.any (linkKey c) = true
  · rw [if_pos hany, filter_map_of_pred _ _ (linkKey_update c c ch) st]
    obtain ⟨r, hrm, hrk⟩ := List.any_eq_true.mp hany
    have hrf : r ∈ st.filter (linkKey c) := List.mem_filter.mpr ⟨hrm, hrk⟩
    have h1 : (st.filter (linkKey c)).length = 1 := by
      have hpos : 0 < (st.filter (linkKey c)).length :=
        List.length_pos.mpr (by intro he; rw [he] at hrf; cases hrf)
      have hle : (st.filter (linkKey c)).length ≤ 1 := h
      omega
    obtain ⟨a, ha⟩ := List.length_eq_one.mp h1
    have hmem : a ∈ st.filter (linkKey c) := by rw [ha]; exact List.mem_singleton_self a
    have ha1 : a.1 = c := by
      have := (List.mem_filter.mp hmem).2
      simpa [linkKey] using this
    rw [ha]
    simp [ha1]
  · rw [if_neg hany, List.filter_append, filter_nil_of_not_any _ _ hany]
    simp [linkKey]

theorem countLinks_set_le (st : List (String × String)) (c0 ch0 c2 : String)
    (h : countLinks st c2 ≤ 1) : countLinks (setDiscordLink st c0 ch0) c2 ≤ 1 := by
  unfold setDiscordLink
  unfold countLinks linksFor at h ⊢
  by_cases hany : st.any (linkKey c0) = true
  · rw [if_pos hany, filter_map_of_pred _ _ (linkKey_update c0 c2 ch0) st]
    simpa [List.length_map] using h
  · rw [if_neg hany, List.filter_append]
    by_cases hc : c0 = c2
    · subst hc
      rw [filter_nil_of_not_any _ _ hany]
      simp [linkKey]
    · have : ([(c0, ch0)] : List (String × String)).filter (linkKey c2) = [] := by
        simp [linkKey, hc]
      rw [this]
      simpa using h

/-! ## Helper lemmas: nicknames -/

theorem nick_no_row_preserved (st : List (String × String × String)) (c u c0 u0 n : String)
    (hst : ∀ r ∈ st, nickKey c u r = false)
    (hne : ¬ (c0 = c ∧ u0 = u)) :
    ∀ r ∈ setDiscordNickname st c0 u0 n, nickKey c u r = false := by
  intro r hr
  unfold setDiscordNickname at hr
  by_cases hany : st.any (nickKey c0 u0) = true
  · rw [if_pos hany] at hr
    obtain ⟨r2, hr2, hfr⟩ := List.mem_map.mp hr
    by_cases hk : r2.1 = c0 ∧ r2.2.1 = u0
    · rw [if_pos hk] at hfr
      have := hst r2 hr2
      rw [← hfr]
      simpa [nickKey] using (by simpa [nickKey] using this : ¬(r2.1 = c ∧ r2.2.1 = u))
    · rw [if_neg hk] at hfr
      rw [← hfr]
      exact hst r2 hr2
  · rw [if_neg hany] at hr
    rcases List.mem_append.mp hr with hmem | hmem
    · exact hst r hmem
    · have : r = (c0, u0, n) := by simpa using hmem
      subst this
      simpa [nickKey] using hne

theorem nick_fold_no_row (ops : List (String × String × String)) (c u : String)
    (st : List (String × String × String))
    (hst : ∀ r ∈ st, nickKey c u r = false)
    (hops : ∀ op ∈ ops, ¬ (op.1 = c ∧ op.2.1 = u)) :
    ∀ r ∈ ops.foldl (fun acc op => setDiscordNickname acc op.1 op.2.1 op.2.2) st,
      nickKey c u r = false := by
  induction ops generalizing st with
  | nil => simpa using hst
  | cons op ops ih =>
    intro r hr
    rw [List.foldl_cons] at hr
    exact ih (setDiscordNickname st op.1 op.2.1 op.2.2)
      (nick_no_row_preserved st c u op.1 op.2.1 op.2.2 hst (hops op (List.mem_cons_self op ops)))
      (fun o ho => hops o (List.mem_cons_of_mem op ho)) r hr

end TietieBot

namespace TietieBot

/-- C7: for every chatId, calling `setDiscordLink` twice sequentially
with two different channel ids, starting from a table with at most one
row for that chatId, leaves exactly one row for that chatId, holding the
channel id of the second call; and every `setDiscordLink` call preserves
the at-most-one-row-per-chatId invariant. -/
theorem setDiscordLink_upsert (st : List (String × String)) (c ch1 ch2 : String)
    (hne : ch1 ≠ ch2) (h : countLinks st c ≤ 1) :
    linksFor (setDiscordLink (setDiscordLink st c ch1) c ch2) c = [(c, ch2)]
    ∧ ∀ (st2 : List (String × String)) (c0 ch0 c2 : String),
        countLinks st2 c2 ≤ 1 → countLinks (setDiscordLink st2 c0 ch0) c2 ≤ 1 := by
  constructor
  · have h1 := linksFor_set_self st c ch1 h
    have hcount : countLinks (setDiscordLink st c ch1) c ≤ 1 := by
      unfold countLinks
      rw [h1]
      simp
    exact linksFor_set_self (setDiscordLink st c ch1) c ch2 hcount
  · intro st2 c0 ch0 c2 h2
    exact countLinks_set_le st2 c0 ch0 c2 h2

/-- Witness for C7 at a concrete table. -/
theorem setDiscordLink_upsert_witness :
    linksFor (setDiscordLink (setDiscordLink [("x", "z")] "c" "a") "c" "b") "c" = [("c", "b")]
    ∧ ∀ (st2 : List (String × String)) (c0 ch0 c2 : String),
        countLinks st2 c2 ≤ 1 → countLinks (setDiscordLink st2 c0 ch0) c2 ≤ 1 :=
  setDiscordLink_upsert [("x", "z")] "c" "a" "b" (by decide) (by decide)

/-- C8: `getDiscordNickname` for a chatId/userId pair no
`setDiscordNickname` call was ever made for returns `none` (the table
being the result of any sequence of `setDiscordNickname` calls on the
freshly created table, none of them for this pair). -/
theorem getDiscordNickname_unset (ops : List (String × String × String)) (c u : String)
    (h : ∀ op ∈ ops, ¬ (op.1 = c ∧ op.2.1 = u)) :
    getDiscordNickname (applyNickOps ops) c u = none := by
  unfold getDiscordNickname applyNickOps
  have hall := nick_fold_no_row ops c u [] (by intro r hr; cases hr) h
  rw [List.find?_eq_none.mpr (fun x hx => by simp [hall x hx])]
  rfl

/-- Witness for C8: two unrelated upserts, then a lookup of an untouched
pair. -/
theorem getDiscordNickname_unset_witness :
    getDiscordNickname (applyNickOps [("c1", "u2", "Bob"), ("c2", "u1", "Eve")]) "c1" "u1" = none :=
  getDiscordNickname_unset [("c1", "u2", "Bob"), ("c2", "u1", "Eve")] "c1" "u1" (by decide)

/-- C9: in the Matrix adapter's media upload, a fetched resource whose
`Content-Length` exceeds 1 MiB is silently abandoned — the background
task issues no PUT and leaves the cache unchanged; the cache changes
only when a background upload runs and completes successfully; and
`uploadMediaAsync` itself returns with the cache untouched. -/
theorem uploadMedia_oversized_abandoned (cache : List (String × String))
    (url mxc : String) (len : Nat) (ok : Bool) (h : 1024 * 1024 < len) :
    uploadMediaBackground cache url mxc len ok = (false, cache)
    ∧ (uploadMediaAsync cache url mxc).2 = cache
    ∧ ∀ (len2 : Nat) (ok2 : Bool),
        (uploadMediaBackground cache url mxc len2 ok2).2 ≠ cache →
        ok2 = true ∧ (uploadMediaBackground cache url mxc len2 ok2).1 = true := by
  refine ⟨?_, ?_, ?_⟩
  · unfold uploadMediaBackground
    rw [if_pos (Or.inr h)]
  · unfold uploadMediaAsync
    cases lookupCache cache url <;> rfl
  · intro len2 ok2 hch
    unfold uploadMediaBackground at hch ⊢
    by_cases hc : len2 = 0 ∨ 1024 * 1024 < len2
    · rw [if_pos hc] at hch
      exact absurd rfl hch
    · rw [if_neg hc] at hch ⊢
      cases ok2 with
      | false => exact absurd rfl hch
      | true => exact ⟨rfl, rfl⟩

/-- Witness for C9 at a 2 MB resource. -/
theorem uploadMedia_oversized_abandoned_witness :
    uploadMediaBackground [("v", "w")] "u" "m" 2000000 true = (false, [("v", "w")])
    ∧ (uploadMediaAsync [("v", "w")] "u" "m").2 = [("v", "w")]
    ∧ ∀ (len2 : Nat) (ok2 : Bool),
        (uploadMediaBackground [("v", "w")] "u" "m" len2 ok2).2 ≠ [("v", "w")] →
        ok2 = true ∧ (uploadMediaBackground [("v", "w")] "u" "m" len2 ok2).1 = true :=
  uploadMedia_oversized_abandoned [("v", "w")] "u" "m" 2000000 true (by decide)

/-- C10: the `GenericMessage` returned by the Matrix adapter's
`sendMessage` always carries `clientName = "matrix"` and the bot's own
user id as both `userId` and `userName`, whatever `clientName` the input
`MessageToSend` carries. -/
theorem matrixSendMessage_stamps_bot (botUserId eventId : String) (now : Nat)
    (cache : List (String × String)) (freshMxc : String) (m : MessageToSend) :
    ((matrixSendMessage botUserId eventId now cache freshMxc m).2.2).clientName = "matrix"
    ∧ ((matrixSendMessage botUserId eventId now cache freshMxc m).2.2).userId = botUserId
    ∧ ((matrixSendMessage botUserId eventId now cache freshMxc m).2.2).userName = botUserId :=
  ⟨rfl, rfl, rfl⟩

end TietieBot

namespace TietieBot

theorem strData_colon_space : (": " : String).data = [':', ' '] := rfl

theorem strData_colon : (":" : String).data = [':'] := rfl

/-- C1 (evaluation of the code at the failing inputs): for a message
with a `document`, the sync-function descriptor's string is returned
unwrapped, so the output contains `文件：<filename>` (resp.
`文件：未知文件`) without brackets and without the trailing space, not
the `"[文件：...] "` fragment the specification describes. -/
theorem describer_document_unbracketed :
    tryDescribeMessage "testbot" formatUser
      { from_ := some { first_name := some "Alice" },
        document := some { file_name := some "a.pdf" } } = Except.ok "Alice: 文件：a.pdf"
    ∧ tryDescribeMessage "testbot" formatUser
      { from_ := some { first_name := some "Alice" },
        document := some { file_name := none } } = Except.ok "Alice: 文件：未知文件"
    ∧ ¬ strContains "Alice: 文件：a.pdf" "[文件：a.pdf] "
    ∧ strContains "Alice: 文件：a.pdf" "文件：a.pdf"
    ∧ ¬ strContains "Alice: 文件：未知文件" "[文件：未知文件] " :=
  ⟨by decide, by decide, by decide, by decide, by decide⟩

/-- C2 counterexample: on a message carrying both `audio` and `photo`
the output contains the photo descriptor as well — the descriptor of a
later media kind is not suppressed. -/
theorem describer_multi_media_counterexample :
    tryDescribeMessage "testbot" formatUser
      { from_ := some { first_name := some "Alice" }, audio := true, photo := true }
      = Except.ok "Alice: [音频] [图片]"
    ∧ strContains "Alice: [音频] [图片]" "[图片]" :=
  ⟨by decide, by decide⟩

/-- C3 counterexample: a message replying to a message whose sender is
the bot itself but which has no `text` makes the describer raise (the
unguarded `message.text.includes(': ')`). -/
theorem describer_throws_counterexample :
    tryDescribeMessage "testbot" formatUser
      { from_ := some { first_name := some "Alice" },
        reply_to_message := some
          { from_ := some { first_name := some "Bot", username := some "testbot" },
            text := none } }
      = Except.error () := by decide

/-- C5 counterexample: with text `"hi "` the final `.trim()` strips the
trailing space, so the output is not `"<formatted sender>: <text>"`
verbatim. -/
theorem describer_plain_text_counterexample :
    tryDescribeMessage "testbot" formatUser
      { from_ := some { first_name := some "Alice" }, text := some "hi " }
      = Except.ok "Alice: hi"
    ∧ ("Alice: hi" : String) ≠ "Alice: hi " :=
  ⟨by decide, by decide⟩

/-- C4: when the replied-to message's sender is the bot itself and its
text is `"Alice: hello"`, the reply-context fragment is
`"[回复给：Alice] "` — the name is the text before the first `": "`. -/
theorem describer_reply_unwraps_bot (botU : String) (m : Msg) (r : SubMsg) (u : JUser)
    (hm : m.reply_to_message = some r) (hf : r.from_ = some u)
    (hu : u.username = some botU) (ht : r.text = some "Alice: hello") :
    describeReplyFragment botU m = Except.ok "[回复给：Alice] " := by
  have hx : tryExtractUserFromMessage botU r = Except.ok (some "Alice") := by
    unfold tryExtractUserFromMessage
    rw [hf]
    dsimp only
    rw [hu, if_pos rfl, ht]
    dsimp only
    rw [if_pos (by decide : jsIncludes "Alice: hello" ": " = true)]
    decide
  unfold describeReplyFragment tryDescribeAsyncFn
  rw [hm]
  dsimp only
  rw [hx]
  decide

/-- Witness for C4. -/
theorem describer_reply_unwraps_bot_witness :
    describeReplyFragment "testbot"
      { reply_to_message := some
          { from_ := some { username := some "testbot" }, text := some "Alice: hello" } }
      = Except.ok "[回复给：Alice] " :=
  describer_reply_unwraps_bot "testbot" _ _ _ rfl rfl rfl rfl

end TietieBot

namespace TietieBot

theorem fwd_none (botU : String) (m : Msg) (h : m.forward_from = none) :
    describeForwardFragment botU m = Except.ok "" := by
  unfold describeForwardFragment tryDescribeAsyncFn
  rw [h]

theorem rpl_none (botU : String) (m : Msg) (h : m.reply_to_message = none) :
    describeReplyFragment botU m = Except.ok "" := by
  unfold describeReplyFragment tryDescribeAsyncFn
  rw [h]

theorem via_none (m : Msg) (h : m.via_bot = none) :
    describeViaBotFragment m = Except.ok "" := by
  unfold describeViaBotFragment tryDescribeAsyncFn
  rw [h]

/-- C6: with no optional capability and no text/caption, the describer
output is the formatted sender followed by `":"` — the dangling `": "`
loses its space to the final trim (`jsTrim s = s` says the formatted
sender carries no surrounding whitespace, which is how `formatUser`
renders every non-empty name). -/
theorem describer_sender_only (botU : String) (m : Msg) (u : JUser) (s : String)
    (hn : noCaps m) (ht : m.text = none) (hc : m.caption = none)
    (hf : m.from_ = some u) (hs : formatUser u = some s) (htr : jsTrim s = s) :
    tryDescribeMessage botU formatUser m = Except.ok (s ++ ":") := by
  obtain ⟨h1, h2, h3, h4, h5, h6, h7, h8, h9, h10, h11, h12, h13, h14, h15, h16, h17⟩ := hn
  unfold tryDescribeMessage
  rw [fwd_none botU m h1, rpl_none botU m h2, via_none m h3]
  dsimp only
  rw [hf]
  unfold tryDescribeStr tryDescribeSyncFn textOrCaption jsJoinStr
  rw [h4, h5, h6, h7, h8, h9, h10, h11, h12, h13, h14, h15, h16, h17, ht, hc]
  dsimp only [Option.getD_some]
  rw [hs]
  refine congrArg Except.ok (strExt ?_)
  rw [jsTrim_data]
  have hsd : jsTrimL s.data = s.data := congrArg String.data htr
  have hgoal := jsTrimL_append_colon s.data hsd
  simp only [Option.getD_some, Option.getD_none, Bool.false_eq_true, if_false,
    strData_append, strData_empty, strData_colon_space, strData_colon,
    List.append_nil, List.nil_append]
  exact hgoal

end TietieBot

namespace TietieBot

/-- Witness for C6. -/
theorem describer_sender_only_witness :
    tryDescribeMessage "testbot" formatUser { from_ := some { first_name := some "Alice" } }
      = Except.ok ("Alice" ++ ":") :=
  describer_sender_only "testbot" { from_ := some { first_name := some "Alice" } }
    { first_name := some "Alice" } "Alice" (by decide) rfl rfl rfl (by decide) (by decide)

/-- C5 (amended): for a message with only a sender and plain text, the
describer output is the final `.trim()` of `"<formatted sender>: <text>"`
and contains no capability fragments. -/
theorem describer_plain_text_amended (botU : String) (m : Msg) (u : JUser) (s t : String)
    (hn : noCaps m) (hf : m.from_ = some u) (hs : formatUser u = some s)
    (ht : m.text = some t) :
    tryDescribeMessage botU formatUser m = Except.ok (jsTrim (s ++ ": " ++ t)) := by
  obtain ⟨h1, h2, h3, h4, h5, h6, h7, h8, h9, h10, h11, h12, h13, h14, h15, h16, h17⟩ := hn
  unfold tryDescribeMessage
  rw [fwd_none botU m h1, rpl_none botU m h2, via_none m h3]
  dsimp only
  rw [hf]
  unfold tryDescribeStr tryDescribeSyncFn textOrCaption jsJoinStr
  rw [h4, h5, h6, h7, h8, h9, h10, h11, h12, h13, h14, h15, h16, h17, ht]
  dsimp only [Option.getD_some]
  rw [hs]
  refine congrArg Except.ok (strExt ?_)
  rw [jsTrim_data, jsTrim_data]
  simp only [Option.getD_some, Bool.false_eq_true, if_false,
    strData_append, strData_empty, strData_colon_space,
    List.append_nil, List.nil_append, List.cons_append, List.append_assoc]

/-- Witness for C5 (amended). -/
theorem describer_plain_text_amended_witness :
    tryDescribeMessage "testbot" formatUser
      { from_ := some { first_name := some "Alice" }, text := some "hi " }
      = Except.ok (jsTrim ("Alice" ++ ": " ++ "hi ")) :=
  describer_plain_text_amended "testbot"
    { from_ := some { first_name := some "Alice" }, text := some "hi " }
    { first_name := some "Alice" } "Alice" "hi " (by decide) rfl (by decide) rfl

theorem extract_ok_of_not (botU : String) (sub : SubMsg) (h : ¬ botNoText botU sub) :
    ∃ v, tryExtractUserFromMessage botU sub = Except.ok v := by
  unfold tryExtractUserFromMessage
  cases hf : sub.from_ with
  | none => exact ⟨some "", rfl⟩
  | some u =>
    dsimp only
    by_cases hu : u.username = some botU
    · rw [if_pos hu]
      cases ht : sub.text with
      | none => exact absurd ⟨u, hf, hu, ht⟩ h
      | some t =>
        dsimp only
        by_cases hi : jsIncludes t ": " = true
        · rw [if_pos hi]
          exact ⟨_, rfl⟩
        · rw [if_neg hi]
          exact ⟨_, rfl⟩
    · rw [if_neg hu]
      exact ⟨_, rfl⟩

/-- C3 (amended): the describer returns a string for every combination
of present/absent optional fields, except that it raises when a
forwarded or replied context makes it unwrap a message whose sender is
the bot itself but which has no `text` field. -/
theorem describer_total_unless (botU : String) (uf : JUser → Option String) (m : Msg)
    (hfwd : m.forward_from ≠ none → ¬ botNoText botU m.toSub)
    (hrpl : ∀ r, m.reply_to_message = some r → ¬ botNoText botU r) :
    ∃ s, tryDescribeMessage botU uf m = Except.ok s := by
  have hfa : ∃ a, describeForwardFragment botU m = Except.ok a := by
    unfold describeForwardFragment tryDescribeAsyncFn
    cases hff : m.forward_from with
    | none => exact ⟨"", rfl⟩
    | some w =>
      dsimp only
      obtain ⟨v, hv⟩ := extract_ok_of_not botU m.toSub (hfwd (by simp [hff]))
      rw [hv]
      exact ⟨_, rfl⟩
  have hra : ∃ a, describeReplyFragment botU m = Except.ok a := by
    unfold describeReplyFragment tryDescribeAsyncFn
    cases hrr : m.reply_to_message with
    | none => exact ⟨"", rfl⟩
    | some r =>
      dsimp only
      obtain ⟨v, hv⟩ := extract_ok_of_not botU r (hrpl r hrr)
      rw [hv]
      exact ⟨_, rfl⟩
  have hva : ∃ a, describeViaBotFragment m = Except.ok a := by
    unfold describeViaBotFragment tryDescribeAsyncFn
    cases m.via_bot with
    | none => exact ⟨"", rfl⟩
    | some w => exact ⟨_, rfl⟩
  obtain ⟨a, ha⟩ := hfa
  obtain ⟨b, hb⟩ := hra
  obtain ⟨e, he⟩ := hva
  unfold tryDescribeMessage
  rw [ha, hb, he]
  exact ⟨_, rfl⟩

/-- Witness for C3 (amended). -/
theorem describer_total_unless_witness :
    ∃ s, tryDescribeMessage "testbot" formatUser
      { from_ := some { first_name := some "Alice" }, text := some "hello" }
      = Except.ok s :=
  describer_total_unless "testbot" formatUser
    { from_ := some { first_name := some "Alice" }, text := some "hello" }
    (fun h => absurd rfl h)
    (fun r hr => Option.noConfusion hr)

end TietieBot

namespace TietieBot

theorem strData_audio_pat : ("[音频]" : String).data = ['[', '音', '频', ']'] := rfl

theorem strData_photo_pat : ("[图片]" : String).data = ['[', '图', '片', ']'] := rfl

theorem strData_audio_frag : ("[音频] " : String).data = ['[', '音', '频', ']', ' '] := rfl

theorem strData_photo_frag : ("[图片] " : String).data = ['[', '图', '片', ']', ' '] := rfl

theorem includes_jsTrimL_pat (l : List Char) (pat : String) (p : Char) (mid : List Char)
    (q : Char) (hpat : pat.data = p :: (mid ++ [q]))
    (hp : p.isWhitespace = false) (hq : q.isWhitespace = false)
    (h : listIncludes pat.data l = true) :
    listIncludes pat.data (jsTrimL l) = true := by
  rw [hpat] at h ⊢
  exact includes_jsTrimL l mid p q hp hq h

/-- C2 (amended): the describer applies no precedence among media
kinds — each present kind contributes its descriptor; in particular on
any message with both `audio` and `photo` the output contains both
`"[音频]"` and `"[图片]"`. -/
theorem describer_all_media_kinds (botU : String) (uf : JUser → Option String) (m : Msg)
    (s : String) (ha : m.audio = true) (hph : m.photo = true)
    (hok : tryDescribeMessage botU uf m = Except.ok s) :
    strContains s "[音频]" ∧ strContains s "[图片]" := by
  have haud : tryDescribeStr m.audio "音频" = "[音频] " := by
    rw [ha]
    decide
  have hpho : tryDescribeStr m.photo "图片" = "[图片] " := by
    rw [hph]
    decide
  unfold tryDescribeMessage at hok
  split at hok
  case h_1 => simp at hok
  case h_2 =>
  split at hok
  case h_1 => simp at hok
  case h_2 =>
  split at hok
  case h_1 => simp at hok
  case h_2 =>
  rw [Except.ok.injEq] at hok
  subst hok
  rw [haud, hpho]
  constructor
  · show listIncludes ("[音频]" : String).data (jsTrim _).data = true
    rw [jsTrim_data]
    apply includes_jsTrimL_pat _ "[音频]" '[' ['音', '频'] ']' (by decide) (by decide) (by decide)
    simp only [strData_append, strData_colon_space, strData_audio_frag, strData_photo_frag,
      strData_audio_pat, List.append_assoc, List.cons_append, List.nil_append]
    apply listIncludes_append_right
    apply listIncludes_cons
    apply listIncludes_cons
    apply listIncludes_append_right
    apply listIncludes_append_right
    apply listIncludes_append_right
    exact listIncludes_of_hasPre _ _ (listHasPre_append _ _)
  · show listIncludes ("[图片]" : String).data (jsTrim _).data = true
    rw [jsTrim_data]
    apply includes_jsTrimL_pat _ "[图片]" '[' ['图', '片'] ']' (by decide) (by decide) (by decide)
    simp only [strData_append, strData_colon_space, strData_audio_frag, strData_photo_frag,
      strData_photo_pat, List.append_assoc, List.cons_append, List.nil_append]
    apply listIncludes_append_right
    apply listIncludes_cons
    apply listIncludes_cons
    apply listIncludes_append_right
    apply listIncludes_append_right
    apply listIncludes_append_right
    apply listIncludes_cons
    apply listIncludes_cons
    apply listIncludes_cons
    apply listIncludes_cons
    apply listIncludes_cons
    apply listIncludes_append_right
    apply listIncludes_append_right
    exact listIncludes_of_hasPre _ _ (listHasPre_append _ _)

/-- Witness for C2 (amended). -/
theorem describer_all_media_kinds_witness :
    strContains "Alice: [音频] [图片]" "[音频]" ∧ strContains "Alice: [音频] [图片]" "[图片]" :=
  describer_all_media_kinds "testbot" formatUser
    { from_ := some { first_name := some "Alice" }, audio := true, photo := true }
    "Alice: [音频] [图片]" rfl rfl (by decide)

end TietieBot
